import Mathlib

/-!
Shallow embedding of the device-protocol core of the Newmar RV lighting
controller: the bit-packed command codec (parserUtils from lighting-ui.js),
the discovery workflow, manual brightness control, the scene snapshot
engine and the schedule engine of RVLightingController. JavaScript numbers
are modelled as rationals, and the JavaScript 32-bit bitwise operators via
explicit reduction modulo 2 to the 32.
-/

/-- JavaScript Math.round: half-up rounding toward positive infinity. -/
def jsRound (x : ℚ) : Int := (x + 1/2).floor

/-- JavaScript ToUint32 of an integral number. -/
def toUint32 (x : Int) : Nat := (x % 4294967296).toNat

/-- Reinterpret a value below 2 to the 32 as a signed 32-bit integer. -/
def ofUint32 (u : Nat) : Int :=
  if u < 2147483648 then (u : Int) else (u : Int) - 4294967296

/-- JavaScript bitwise AND on integral numbers. -/
def jsAnd (a b : Int) : Int := ofUint32 (toUint32 a &&& toUint32 b)

/-- JavaScript bitwise OR on integral numbers. -/
def jsOr (a b : Int) : Int := ofUint32 (toUint32 a ||| toUint32 b)

/-- JavaScript left shift on integral numbers. -/
def jsShl (a : Int) (s : Nat) : Int :=
  ofUint32 ((toUint32 a <<< (s % 32)) % 4294967296)

/-- Upper-case hex digit for a value below 16. -/
def hexDigitUpper (n : Nat) : Char :=
  if n < 10 then Char.ofNat (48 + n) else Char.ofNat (55 + n)

/-- Fuel-driven digit expansion for hexadecimal rendering. -/
def natHexAux : Nat → Nat → List Char
  | 0, _ => []
  | fuel + 1, n =>
    if n < 16 then [hexDigitUpper n]
    else natHexAux fuel (n / 16) ++ [hexDigitUpper (n % 16)]

/-- Upper-case hexadecimal rendering of a natural number, as produced by
the JavaScript idiom toString(16).toUpperCase(). -/
def natHex (n : Nat) : String := String.mk (natHexAux (n + 1) n)

/-- Hex rendering of an integral JavaScript number (negative values are
rendered with a leading minus sign, as in JavaScript). -/
def jsHexString (v : Int) : String :=
  if v < 0 then "-" ++ natHex v.natAbs else natHex v.toNat

/-- upad from lighting-ui.js: left-pad a string with zeros to the target
length; throws (modelled as none) when the string is already longer. -/
def upad (s : String) (targetLength : Nat := 2) : Option String :=
  if s.length > targetLength then none
  else some (String.mk (List.replicate (targetLength - s.length) '0') ++ s)

/-- The numeric value reduced inside packEvent: fold of JavaScript OR over
the argument list (reduce with no initial value, so the head is taken
as-is). -/
def packEventVal (first : Int) (rest : List Int) : Int :=
  rest.foldl jsOr first

/-- packEvent from lighting-ui.js: OR all fields together and render the
result as a zero-padded 4-digit upper-case hex token prefixed with 0x. -/
def packEvent (first : Int) (rest : List Int) : Option String :=
  (upad (jsHexString (packEventVal first rest)) 4).map (fun phex => "0x" ++ phex)

/-- ESET_INSTANCE from lighting-ui.js. -/
def ESET_INSTANCE (inst : ℚ) : Int := jsShl (jsAnd (jsRound inst) 255) 8

/-- ESET_INDEX from lighting-ui.js. -/
def ESET_INDEX (index : ℚ) : Int := jsShl (jsAnd (jsRound index - 1) 255) 8

/-- ESET_BRIGHTNESS from lighting-ui.js. -/
def ESET_BRIGHTNESS (brightness : ℚ) : Int := jsAnd (jsRound brightness) 255

/-- ESET_LEVEL from lighting-ui.js. -/
def ESET_LEVEL (level : ℚ) : Int := jsAnd (jsRound level) 15

/-- Get on an association-list model of a JavaScript Map. -/
def jmGet {κ α : Type} [BEq κ] (m : List (κ × α)) (k : κ) : Option α :=
  (m.find? (fun p => p.1 == k)).map (fun p => p.2)

/-- Set on an association-list model of a JavaScript Map: replace in place
when the key is present, append otherwise. -/
def jmSet {κ α : Type} [BEq κ] (m : List (κ × α)) (k : κ) (v : α) : List (κ × α) :=
  if (m.find? (fun p => p.1 == k)).isSome then
    m.map (fun p => if p.1 == k then (k, v) else p)
  else m ++ [(k, v)]

/-- Delete on an association-list model of a JavaScript Map. -/
def jmErase {κ α : Type} [BEq κ] (m : List (κ × α)) (k : κ) : List (κ × α) :=
  m.filter (fun p => !(p.1 == k))

/-- Room name table of RVLightingController. -/
def roomNames (code : Int) : Option String :=
  if code = 0 then some "Living Room"
  else if code = 1 then some "Kitchen"
  else if code = 2 then some "Bedroom"
  else if code = 3 then some "Bath"
  else if code = 4 then some "Half Bath"
  else if code = 5 then some "Exterior"
  else none

/-- A successfully JSON-parsed light object as delivered by the control
unit during discovery. -/
structure RawLight where
  name : String
  index : Int
  inst : Int
  command : Int
  room_loc : Int
deriving DecidableEq

/-- The light record stored in the controller registry (this.lights). -/
structure LightData where
  name : String
  index : Int
  inst : Int
  command : Int
  room : Int
  roomName : String
  isDimmer : Bool
  currentBrightness : ℚ
deriving DecidableEq

/-- Build the stored light record from a parsed light object, as the
discovery object handler does. -/
def mkLightData (o : RawLight) : LightData :=
  { name := o.name.replace "|" " "
    index := o.index
    inst := o.inst
    command := o.command
    room := o.room_loc
    roomName := (roomNames o.room_loc).getD "Unknown"
    isDimmer := o.command == 0
    currentBrightness := 0 }

/-- Outcome of the discovery promise: resolve with the lights map, or
reject with INIT_TIMEOUT after the 10 second budget (the registry keeps
whatever was inserted before the budget elapsed). -/
inductive InitOutcome where
  | resolved (lights : List (Int × LightData))
  | rejectedTimeout (lights : List (Int × LightData))
deriving DecidableEq

/-- Whether the discovery promise resolved. -/
def InitOutcome.isResolved : InitOutcome → Bool
  | .resolved _ => true
  | .rejectedTimeout _ => false

/-- The registry contents at the end of discovery, resolved or not. -/
def InitOutcome.registry : InitOutcome → List (Int × LightData)
  | .resolved l => l
  | .rejectedTimeout l => l

/-- The per-object discovery handlers: each arriving response either
parses (insert into the lights map, bump receivedCount) or throws on
JSON.parse (logged and skipped, no insert, no bump). -/
def runLightHandlers : List (Option RawLight) → List (Int × LightData) → Nat →
    List (Int × LightData) × Nat
  | [], lights, receivedCount => (lights, receivedCount)
  | none :: rest, lights, receivedCount => runLightHandlers rest lights receivedCount
  | some o :: rest, lights, receivedCount =>
      runLightHandlers rest (jmSet lights o.index (mkLightData o)) (receivedCount + 1)

/-- The discovery workflow of RVLightingController, given the parsed count
response and the object-fetch responses that arrive within the 10 second
budget: count 0 resolves immediately with the empty registry; otherwise
the promise resolves only when receivedCount reaches totalLights, and the
timeout rejects it otherwise. -/
def runDiscovery (totalLights : Int) (resps : List (Option RawLight)) : InitOutcome :=
  if totalLights = 0 then InitOutcome.resolved []
  else
    let r := runLightHandlers resps [] 0
    if (r.2 : Int) = totalLights then InitOutcome.resolved r.1
    else InitOutcome.rejectedTimeout r.1

/-- Result of one setLightBrightness call: the returned status, the
registry afterwards, and the command handed to sendWSData if any. -/
structure SetResult where
  ok : Bool
  lights : List (Int × LightData)
  sent : Option String
deriving DecidableEq

/-- setLightBrightness from RVLightingController: look the light up,
clamp the brightness to 0..100, build the dimmer or switch wire command,
send it, and cache the clamped brightness. -/
def setLightBrightness (lights : List (Int × LightData)) (lightIndex : Int)
    (brightness : ℚ) : SetResult :=
  match jmGet lights lightIndex with
  | none => ⟨false, lights, none⟩
  | some light =>
    let b := max 0 (min 100 brightness)
    let cmdOpt :=
      if light.isDimmer then
        let scaledBrightness := jsRound (b / 100 * 200)
        (packEvent (ESET_INSTANCE (lightIndex : ℚ))
            [ESET_BRIGHTNESS ((scaledBrightness : Int) : ℚ)]).map
          (fun p => "HMSEVENT=ENEWMARDIMMERPARSER_SET_BRIGHTNESS_NONSCALED|" ++ p)
      else
        let level : ℚ := if b > 0 then 1 else 0
        (packEvent (ESET_INSTANCE (lightIndex : ℚ)) [ESET_LEVEL level]).map
          (fun p => "HMSEVENT=ENEWMARDIMMERPARSER_TURN_ON_OFF|" ++ p)
    match cmdOpt with
    | none => ⟨false, lights, none⟩
    | some cmd =>
        ⟨true, jmSet lights lightIndex { light with currentBrightness := b }, some cmd⟩

/-- One captured member of a scene (lightStates entry). -/
structure SceneMember where
  index : Int
  name : String
  brightness : ℚ
  room : Int
deriving DecidableEq

/-- A stored scene. -/
structure Scene where
  name : String
  created : String
  room : Option Int
  lights : List SceneMember
deriving DecidableEq

/-- The room-filter test of saveScene: the loop body skips a light when a
filter is present and the room differs. -/
def passesRoomFilter (roomFilter : Option Int) (light : LightData) : Bool :=
  match roomFilter with
  | none => true
  | some r => light.room == r

/-- The saveScene capture loop: walk the registry in map order, skip
lights failing the room filter, refresh each remaining light from the
brightness query when it answers (best effort, stored value otherwise),
and push its state. Returns the captured members and the registry with
the refreshed cached brightness values. -/
def saveSceneScan (refresh : Int → Option ℚ) (roomFilter : Option Int) :
    List (Int × LightData) → List SceneMember × List (Int × LightData)
  | [] => ([], [])
  | (k, light) :: rest =>
    let r := saveSceneScan refresh roomFilter rest
    if passesRoomFilter roomFilter light then
      let light' :=
        match refresh light.index with
        | some lvl => { light with currentBrightness := lvl }
        | none => light
      (⟨light'.index, light'.name, light'.currentBrightness, light'.room⟩ :: r.1,
        (k, light') :: r.2)
    else (r.1, (k, light) :: r.2)

/-- saveScene from RVLightingController: guard on initialization and the
scene name, capture the filtered light states, store the scene under its
name (overwriting), and report success. The stored scene, the scenes map
and the registry afterwards are returned; none models a false return. -/
def saveScene (isInit : Bool) (lights : List (Int × LightData))
    (refresh : Int → Option ℚ) (nowIso : String) (sceneName : String)
    (roomFilter : Option Int) (scenes : List (String × Scene)) :
    Option (Scene × List (String × Scene) × List (Int × LightData)) :=
  if !isInit then none
  else if sceneName.isEmpty then none
  else
    let r := saveSceneScan refresh roomFilter lights
    let scene : Scene :=
      { name := sceneName, created := nowIso, room := roomFilter, lights := r.1 }
    some (scene, jmSet scenes sceneName scene, r.2)

/-- The loadScene application loop: apply each member in order, counting
the successful control calls. -/
def loadSceneLoop : List SceneMember → List (Int × LightData) → Nat →
    Nat × List (Int × LightData)
  | [], lights, successCount => (successCount, lights)
  | ls :: rest, lights, successCount =>
    let r := setLightBrightness lights ls.index ls.brightness
    loadSceneLoop rest r.lights (if r.ok then successCount + 1 else successCount)

/-- loadScene from RVLightingController: look the scene up, apply each
stored member in order, and return whether at least one control call
succeeded (successCount greater than zero), together with the registry
afterwards. -/
def loadScene (scenes : List (String × Scene)) (lights : List (Int × LightData))
    (sceneName : String) : Bool × List (Int × LightData) :=
  match jmGet scenes sceneName with
  | none => (false, lights)
  | some scene =>
    let r := loadSceneLoop scene.lights lights 0
    (decide (r.1 > 0), r.2)

/-- A stored schedule event. -/
structure SchedEvent where
  time : String
  days : List String
  scene : Option String
  action : String
deriving DecidableEq

/-- A stored schedule. -/
structure Schedule where
  name : String
  enabled : Bool
  created : String
  events : List SchedEvent
deriving DecidableEq

/-- An action dispatched by the schedule evaluator. -/
inductive SchedDispatch where
  | loadSceneAct (scene : String)
  | lightsOffAct
  | lightsOnAct
deriving DecidableEq

/-- JavaScript padStart(2, zero): left-pad to two characters. -/
def pad2 (s : String) : String :=
  String.mk (List.replicate (2 - s.length) '0') ++ s

/-- The current HH:MM string computed by the evaluator tick. -/
def currentTimeString (hours minutes : Nat) : String :=
  pad2 (toString hours) ++ ":" ++ pad2 (toString minutes)

/-- The weekday tag table indexed by getDay(). -/
def dayNames : List String := ["sun", "mon", "tue", "wed", "thu", "fri", "sat"]

/-- The current weekday tag computed by the evaluator tick. -/
def currentDayString (weekday : Nat) : String := dayNames.getD weekday ""

/-- The evaluator switch on a matching event: load_scene dispatches only
when the scene field is a nonempty string, lights_off and lights_on
always dispatch, any other action is logged and dispatches nothing. -/
def dispatchOf (e : SchedEvent) : Option SchedDispatch :=
  if e.action == "load_scene" then
    match e.scene with
    | some s => if s.isEmpty then none else some (SchedDispatch.loadSceneAct s)
    | none => none
  else if e.action == "lights_off" then some SchedDispatch.lightsOffAct
  else if e.action == "lights_on" then some SchedDispatch.lightsOnAct
  else none

/-- checkScheduleEvents from RVLightingController: a tick returns the
sequence of actions dispatched, in event-list order. A missing or
disabled schedule dispatches nothing; otherwise every event whose time
equals the current HH:MM and whose days contain the current weekday tag
dispatches its action. -/
def checkScheduleEvents (schedules : List (String × Schedule))
    (scheduleName : String) (hours minutes weekday : Nat) : List SchedDispatch :=
  match jmGet schedules scheduleName with
  | none => []
  | some schedule =>
    if !schedule.enabled then []
    else
      let currentTime := currentTimeString hours minutes
      let currentDay := currentDayString weekday
      schedule.events.foldl
        (fun acc e =>
          if e.time == currentTime && e.days.contains currentDay then
            acc ++ (dispatchOf e).toList
          else acc) []

/-- Controller state relevant to schedule activation: the stored
schedules, the activeSchedules set, the scheduleIntervals map, the live
setInterval timers of the host environment (id and the schedule name the
callback closes over) and the next fresh timer id. -/
structure CtrlSched where
  schedules : List (String × Schedule)
  activeSchedules : List String
  scheduleIntervals : List (String × Nat)
  timers : List (Nat × String)
  nextId : Nat
deriving DecidableEq

/-- activateSchedule from RVLightingController: missing schedule fails;
an already-active name is a no-op returning true; otherwise the name is
added to the active set, a fresh periodic evaluator is started and its
interval id recorded. -/
def activateSchedule (s : CtrlSched) (scheduleName : String) : Bool × CtrlSched :=
  match jmGet s.schedules scheduleName with
  | none => (false, s)
  | some _ =>
    if s.activeSchedules.contains scheduleName then (true, s)
    else
      let intervalId := s.nextId
      (true,
        { s with
            activeSchedules := s.activeSchedules ++ [scheduleName]
            timers := s.timers ++ [(intervalId, scheduleName)]
            scheduleIntervals := jmSet s.scheduleIntervals scheduleName intervalId
            nextId := s.nextId + 1 })

/-- deactivateSchedule from RVLightingController: not-active fails;
otherwise the recorded evaluator interval is cleared and forgotten and
the name removed from the active set. -/
def deactivateSchedule (s : CtrlSched) (scheduleName : String) : Bool × CtrlSched :=
  if !s.activeSchedules.contains scheduleName then (false, s)
  else
    let s1 :=
      match jmGet s.scheduleIntervals scheduleName with
      | some intervalId =>
        { s with
            timers := s.timers.filter (fun t => !(t.1 == intervalId))
            scheduleIntervals := jmErase s.scheduleIntervals scheduleName }
      | none => s
    (true,
      { s1 with activeSchedules := s1.activeSchedules.filter (fun n => !(n == scheduleName)) })

/-- An activation or deactivation call. -/
inductive SchedOp where
  | act (scheduleName : String)
  | deact (scheduleName : String)
deriving DecidableEq

/-- Run a sequence of activation calls from a state. -/
def runSchedOps (s : CtrlSched) : List SchedOp → CtrlSched
  | [] => s
  | SchedOp.act n :: rest => runSchedOps (activateSchedule s n).2 rest
  | SchedOp.deact n :: rest => runSchedOps (deactivateSchedule s n).2 rest

/-- A freshly constructed controller: no active schedules, no intervals,
no timers. -/
def initCtrl (schedules : List (String × Schedule)) : CtrlSched :=
  ⟨schedules, [], [], [], 0⟩

/-- Number of live evaluator timers registered for a schedule name. -/
def timersFor (s : CtrlSched) (n : String) : Nat :=
  s.timers.countP (fun t => t.2 == n)

/-- The coupling invariant of the activation state machine. -/
def schedInv (s : CtrlSched) : Prop :=
  (∀ n : String, timersFor s n = (if n ∈ s.activeSchedules then 1 else 0)) ∧
  (∀ id n, (id, n) ∈ s.timers →
    jmGet s.scheduleIntervals n = some id ∧ id < s.nextId) ∧
  (∀ n id, jmGet s.scheduleIntervals n = some id → (id, n) ∈ s.timers) ∧
  (∀ id n m, (id, n) ∈ s.timers → (id, m) ∈ s.timers → n = m)

/-- A light object as parsed during discovery, used as a test fixture. -/
def rawLightA : RawLight := ⟨"Light A", 0, 1, 0, 0⟩

/-- A switch light fixture at registry index 1. -/
def lightSwitch1 : LightData :=
  ⟨"Switch One", 1, 1, 1, 0, "Living Room", false, 0⟩

/-- A switch light fixture at registry index 2. -/
def lightSwitch2 : LightData :=
  ⟨"Switch Two", 2, 2, 1, 0, "Living Room", false, 0⟩

/-- A dimmer light fixture at registry index 5. -/
def lightDimmer5 : LightData :=
  ⟨"Dimmer Five", 5, 5, 0, 1, "Kitchen", true, 0⟩

/-- A registry holding the two switch fixtures. -/
def registryTwo : List (Int × LightData) := [(1, lightSwitch1), (2, lightSwitch2)]

/-- A scene whose members all reference present devices. -/
def sceneFull : Scene :=
  ⟨"full", "2024-01-01", none, [⟨1, "Switch One", 0, 0⟩, ⟨2, "Switch Two", 0, 0⟩]⟩

/-- A scene with one member referencing a device id absent from the
registry. -/
def scenePart : Scene :=
  ⟨"part", "2024-01-01", none, [⟨1, "Switch One", 0, 0⟩, ⟨3, "Gone", 0, 0⟩]⟩

/-- A scenes store holding both scene fixtures. -/
def sceneStore : List (String × Scene) := [("full", sceneFull), ("part", scenePart)]

/-- A schedule event firing Mondays at 07:00 with the lights_off action. -/
def eventMonOff : SchedEvent := ⟨"07:00", ["mon"], none, "lights_off"⟩

/-- A schedule fixture holding the single Monday event, enabled. -/
def schedMorning : Schedule := ⟨"morning", true, "2024-01-01", [eventMonOff]⟩

/-- A schedules store holding the schedule fixture. -/
def schedStore : List (String × Schedule) := [("morning", schedMorning)]

/-- A brightness-query oracle that never answers (every query times out). -/
def refreshNone : Int → Option ℚ := fun _ => none

/-- Bridge from the computable rounding to the mathematical floor. -/
theorem jsRound_eq_floor (x : ℚ) : jsRound x = Int.floor (x + 1/2) := by
  rw [jsRound, Rat.floor_def]
  exact Rat.floor_def' (x + 1/2)

/-- Rounding an integer leaves it unchanged. -/
theorem jsRound_intCast (n : ℤ) : jsRound ((n : ℚ)) = n := by
  rw [jsRound_eq_floor, Int.floor_int_add]
  have h : Int.floor ((1:ℚ)/2) = 0 := by
    rw [Int.floor_eq_iff]
    norm_num
  omega

theorem toUint32_cast (x : Int) : ((toUint32 x : Nat) : Int) = x % 4294967296 :=
  Int.toNat_of_nonneg (Int.emod_nonneg x (by norm_num))

theorem toUint32_lt (x : Int) : toUint32 x < 4294967296 := by
  rw [toUint32]
  omega

theorem toUint32_of_small {x : Int} (h0 : 0 ≤ x) (h : x < 4294967296) :
    (toUint32 x : Int) = x := by
  rw [toUint32_cast, Int.emod_eq_of_lt h0 h]

theorem ofUint32_of_small {u : Nat} (h : u < 2147483648) : ofUint32 u = (u : Int) := by
  rw [ofUint32, if_pos h]

/-- JavaScript x AND 255 is reduction modulo 256. -/
theorem jsAnd_255 (x : Int) : jsAnd x 255 = x % 256 := by
  have h255 : toUint32 255 = 255 := by decide
  have hand : toUint32 x &&& 255 = toUint32 x % 256 := by
    have h : (255:Nat) = 2^8 - 1 := by norm_num
    rw [h, Nat.and_pow_two_sub_one_eq_mod]
  have hlt : toUint32 x % 256 < 2147483648 :=
    lt_of_lt_of_le (Nat.mod_lt _ (by norm_num)) (by norm_num)
  rw [jsAnd, h255, hand, ofUint32_of_small hlt]
  have : ((toUint32 x % 256 : Nat) : Int) = ((toUint32 x : Nat) : Int) % 256 := by
    push_cast
    ring
  rw [this, toUint32_cast]
  exact Int.emod_emod_of_dvd x (by norm_num)

/-- JavaScript x AND 15 is reduction modulo 16. -/
theorem jsAnd_15 (x : Int) : jsAnd x 15 = x % 16 := by
  have h15 : toUint32 15 = 15 := by decide
  have hand : toUint32 x &&& 15 = toUint32 x % 16 := by
    have h : (15:Nat) = 2^4 - 1 := by norm_num
    rw [h, Nat.and_pow_two_sub_one_eq_mod]
  have hlt : toUint32 x % 16 < 2147483648 :=
    lt_of_lt_of_le (Nat.mod_lt _ (by norm_num)) (by norm_num)
  rw [jsAnd, h15, hand, ofUint32_of_small hlt]
  have : ((toUint32 x % 16 : Nat) : Int) = ((toUint32 x : Nat) : Int) % 16 := by
    push_cast
    ring
  rw [this, toUint32_cast]
  exact Int.emod_emod_of_dvd x (by norm_num)

/-- A small nonnegative value shifted left by 8 is multiplication by 256. -/
theorem jsShl8_small {a : Int} (h0 : 0 ≤ a) (h : a < 256) : jsShl a 8 = a * 256 := by
  have ht : (toUint32 a : Int) = a := toUint32_of_small h0 (by omega)
  have htn : toUint32 a < 256 := by omega
  have hshift : toUint32 a <<< (8 % 32) = toUint32 a * 256 := by
    rw [Nat.shiftLeft_eq]
  have hlt : toUint32 a * 256 < 4294967296 := by omega
  have hlt2 : toUint32 a * 256 % 4294967296 = toUint32 a * 256 := Nat.mod_eq_of_lt hlt
  rw [jsShl, hshift, hlt2, ofUint32_of_small (by omega)]
  push_cast
  omega

/-- OR of a byte shifted into the high half against a low byte is addition. -/
theorem jsOr_hi_lo {h l : Int} (hh0 : 0 ≤ h) (hh : h < 65536) (hl0 : 0 ≤ l)
    (hl : l < 256) (hdvd : h % 256 = 0) : jsOr h l = h + l := by
  have hth : (toUint32 h : Int) = h := toUint32_of_small hh0 (by omega)
  have htl : (toUint32 l : Int) = l := toUint32_of_small hl0 (by omega)
  have hd : 256 ∣ toUint32 h := by
    have : (256:Int) ∣ h := Int.dvd_of_emod_eq_zero hdvd
    obtain ⟨c, hc⟩ := this
    have hc0 : 0 ≤ c := by omega
    refine ⟨c.toNat, ?_⟩
    omega
  obtain ⟨c, hc⟩ := hd
  have hcl : l.toNat < 2^8 := by omega
  have htl2 : toUint32 l = l.toNat := by omega
  have hor : toUint32 h ||| toUint32 l = toUint32 h + toUint32 l := by
    rw [hc, htl2]
    have := Nat.mul_add_lt_is_or (b := l.toNat) (i := 8) hcl c
    have h28 : (2:Nat)^8 = 256 := by norm_num
    rw [h28] at this
    omega
  have hlt : toUint32 h + toUint32 l < 2147483648 := by omega
  rw [jsOr, hor, ofUint32_of_small hlt]
  push_cast
  omega

theorem natHexAux_fuel_irrel :
    ∀ f1 f2 n, n < f1 → n < f2 → natHexAux f1 n = natHexAux f2 n := by
  intro f1
  induction f1 with
  | zero => intro f2 n h1 _; omega
  | succ f ih =>
    intro f2 n h1 h2
    match f2 with
    | 0 => omega
    | f2 + 1 =>
      by_cases h : n < 16
      · simp [natHexAux, h]
      · have hd : n / 16 < n := Nat.div_lt_self (by omega) (by omega)
        simp only [natHexAux, if_neg h]
        rw [ih f2 (n / 16) (by omega) (by omega)]

/-- Length bound for the digit expansion: a value below 16 to the k renders
in at most k digits. -/
theorem natHexAux_length_le :
    ∀ k n fuel, 0 < k → n < fuel → n < 16 ^ k → (natHexAux fuel n).length ≤ k := by
  intro k
  induction k with
  | zero => intro n fuel h; omega
  | succ k ih =>
    intro n fuel _ hfuel hlt
    match fuel with
    | 0 => omega
    | fuel + 1 =>
      by_cases h : n < 16
      · simp [natHexAux, h]
      · have hd : n / 16 < n := Nat.div_lt_self (by omega) (by omega)
        have hk : 0 < k := by
          by_contra hk0
          have : k = 0 := by omega
          subst this
          simp at hlt
          omega
        have hdiv : n / 16 < 16 ^ k := by
          have h16 : (16:Nat) ^ (k + 1) = 16 ^ k * 16 := by ring
          rw [h16] at hlt
          exact Nat.div_lt_of_lt_mul (by omega)
        simp only [natHexAux, if_neg h, List.length_append, List.length_cons,
          List.length_nil]
        have := ih (n / 16) fuel hk (by omega) hdiv
        omega

theorem natHex_length_le {k n : Nat} (hk : 0 < k) (h : n < 16 ^ k) :
    (natHex n).length ≤ k := by
  have := natHexAux_length_le k n (n + 1) hk (by omega) h
  simpa [natHex, String.length] using this

/-- A packEvent whose packed value fits 16 bits renders successfully. -/
theorem packEvent_isSome {first : Int} {rest : List Int}
    (h0 : 0 ≤ packEventVal first rest) (h : packEventVal first rest < 65536) :
    (packEvent first rest).isSome = true := by
  have hlen : (jsHexString (packEventVal first rest)).length ≤ 4 := by
    rw [jsHexString, if_neg (by omega)]
    exact natHex_length_le (by norm_num) (by omega)
  rw [packEvent, upad, if_neg (by omega)]
  rfl

theorem ESET_BRIGHTNESS_eq (b : ℚ) : ESET_BRIGHTNESS b = jsRound b % 256 :=
  jsAnd_255 (jsRound b)

theorem ESET_LEVEL_eq (l : ℚ) : ESET_LEVEL l = jsRound l % 16 :=
  jsAnd_15 (jsRound l)

theorem ESET_INSTANCE_eq (q : ℚ) : ESET_INSTANCE q = (jsRound q % 256) * 256 := by
  rw [ESET_INSTANCE, jsAnd_255]
  have h0 : 0 ≤ jsRound q % 256 := Int.emod_nonneg _ (by norm_num)
  have h1 : jsRound q % 256 < 256 := Int.emod_lt_of_pos _ (by norm_num)
  exact jsShl8_small h0 h1

theorem ESET_BRIGHTNESS_nonneg (b : ℚ) : 0 ≤ ESET_BRIGHTNESS b := by
  rw [ESET_BRIGHTNESS_eq]; exact Int.emod_nonneg _ (by norm_num)

theorem ESET_BRIGHTNESS_lt (b : ℚ) : ESET_BRIGHTNESS b < 256 := by
  rw [ESET_BRIGHTNESS_eq]; exact Int.emod_lt_of_pos _ (by norm_num)

theorem jmGet_nil {κ α : Type} [BEq κ] (k : κ) : jmGet ([] : List (κ × α)) k = none := rfl

theorem jmGet_cons {κ α : Type} [BEq κ] (p : κ × α) (rest : List (κ × α)) (k : κ) :
    jmGet (p :: rest) k = if p.1 == k then some p.2 else jmGet rest k := by
  cases h : (p.1 == k) <;> simp [jmGet, List.find?, h]

theorem jmFind_isSome {κ α : Type} [BEq κ] (m : List (κ × α)) (k : κ) :
    (m.find? (fun p => p.1 == k)).isSome = (jmGet m k).isSome := by
  rw [jmGet]
  cases m.find? (fun p => p.1 == k) <;> rfl

theorem jmSet_found {κ α : Type} [BEq κ] (m : List (κ × α)) (k : κ) (v : α)
    (h : (jmGet m k).isSome = true) :
    jmSet m k v = m.map (fun p => if p.1 == k then (k, v) else p) := by
  rw [jmSet, if_pos (by rw [jmFind_isSome]; exact h)]

theorem jmSet_missing {κ α : Type} [BEq κ] (m : List (κ × α)) (k : κ) (v : α)
    (h : (jmGet m k).isSome = false) : jmSet m k v = m ++ [(k, v)] := by
  rw [jmSet, if_neg (by rw [jmFind_isSome, h]; simp)]

theorem jmGet_jmSet_self {κ α : Type} [BEq κ] [LawfulBEq κ]
    (m : List (κ × α)) (k : κ) (v : α) : jmGet (jmSet m k v) k = some v := by
  induction m with
  | nil =>
    rw [jmSet_missing _ _ _ (by rw [jmGet_nil]; rfl), List.nil_append, jmGet_cons]
    simp
  | cons p rest ih =>
    cases hp : (p.1 == k) with
    | true =>
      rw [jmSet_found _ _ _ (by rw [jmGet_cons, hp]; rfl)]
      simp only [List.map_cons, hp, if_pos]
      rw [jmGet_cons]
      simp
    | false =>
      cases hr : (jmGet rest k).isSome with
      | true =>
        rw [jmSet_found _ _ _ (by rw [jmGet_cons, hp]; simpa using hr)]
        simp only [List.map_cons, hp]
        rw [if_neg (by simp [hp]), jmGet_cons, if_neg (by simp [hp])]
        have := ih
        rw [jmSet_found _ _ _ hr] at this
        exact this
      | false =>
        rw [jmSet_missing _ _ _ (by rw [jmGet_cons, hp]; simpa using hr)]
        rw [List.cons_append, jmGet_cons, if_neg (by simp [hp])]
        have := ih
        rw [jmSet_missing _ _ _ hr] at this
        exact this

theorem jmGet_jmSet_ne {κ α : Type} [BEq κ] [LawfulBEq κ]
    (m : List (κ × α)) (k : κ) (v : α) (k2 : κ) (hne : (k == k2) = false) :
    jmGet (jmSet m k v) k2 = jmGet m k2 := by
  induction m with
  | nil =>
    rw [jmSet_missing _ _ _ (by rw [jmGet_nil]; rfl), List.nil_append,
      jmGet_cons, if_neg (by simp [hne])]
  | cons p rest ih =>
    cases hp : (p.1 == k) with
    | true =>
      have hpk : p.1 = k := eq_of_beq hp
      have hp2 : (p.1 == k2) = false := by rw [hpk]; exact hne
      rw [jmSet_found _ _ _ (by rw [jmGet_cons, hp]; rfl)]
      simp only [List.map_cons, hp, if_pos]
      rw [jmGet_cons, if_neg (by simp [hne]), jmGet_cons, if_neg (by simp [hp2])]
      have hmap : jmGet (rest.map fun q => if q.1 == k then (k, v) else q) k2
          = jmGet rest k2 := by
        clear ih
        induction rest with
        | nil => rfl
        | cons q tl ihq =>
          cases hq : (q.1 == k) with
          | true =>
            have hq2 : (q.1 == k2) = false := by rw [eq_of_beq hq]; exact hne
            simp only [List.map_cons, hq, if_pos]
            rw [jmGet_cons, if_neg (by simp [hne]), jmGet_cons, if_neg (by simp [hq2])]
            exact ihq
          | false =>
            simp only [List.map_cons, hq]
            rw [if_neg (by simp [hq]), jmGet_cons, jmGet_cons]
            cases hq2 : (q.1 == k2) with
            | true => simp [hq2]
            | false => simp only [hq2, if_neg Bool.false_ne_true]; exact ihq
      exact hmap
    | false =>
      cases hr : (jmGet rest k).isSome with
      | true =>
        rw [jmSet_found _ _ _ (by rw [jmGet_cons, hp]; simpa using hr)]
        simp only [List.map_cons, hp]
        rw [if_neg (by simp [hp]), jmGet_cons, jmGet_cons]
        have := ih
        rw [jmSet_found _ _ _ hr] at this
        cases hp2 : (p.1 == k2) with
        | true => simp [hp2]
        | false => simp only [hp2, if_neg Bool.false_ne_true]; exact this
      | false =>
        rw [jmSet_missing _ _ _ (by rw [jmGet_cons, hp]; simpa using hr)]
        rw [List.cons_append, jmGet_cons, jmGet_cons]
        have := ih
        rw [jmSet_missing _ _ _ hr] at this
        cases hp2 : (p.1 == k2) with
        | true => simp [hp2]
        | false => simp only [hp2, if_neg Bool.false_ne_true]; exact this

theorem packEventVal_pair (a b : Int) : packEventVal a [b] = jsOr a b := rfl

/-- The packed instance/brightness pair is high byte times 256 plus low
byte. -/
theorem packed_inst_brightness (q r : ℚ) :
    packEventVal (ESET_INSTANCE q) [ESET_BRIGHTNESS r]
      = (jsRound q % 256) * 256 + jsRound r % 256 := by
  rw [packEventVal_pair, ESET_INSTANCE_eq, ESET_BRIGHTNESS_eq]
  have h0 : 0 ≤ jsRound q % 256 := Int.emod_nonneg _ (by norm_num)
  have h1 : jsRound q % 256 < 256 := Int.emod_lt_of_pos _ (by norm_num)
  have l0 : 0 ≤ jsRound r % 256 := Int.emod_nonneg _ (by norm_num)
  have l1 : jsRound r % 256 < 256 := Int.emod_lt_of_pos _ (by norm_num)
  exact jsOr_hi_lo (by omega) (by omega) l0 l1 (by omega)

/-- The packed instance/level pair is high byte times 256 plus low nibble. -/
theorem packed_inst_level (q r : ℚ) :
    packEventVal (ESET_INSTANCE q) [ESET_LEVEL r]
      = (jsRound q % 256) * 256 + jsRound r % 16 := by
  rw [packEventVal_pair, ESET_INSTANCE_eq, ESET_LEVEL_eq]
  have h0 : 0 ≤ jsRound q % 256 := Int.emod_nonneg _ (by norm_num)
  have h1 : jsRound q % 256 < 256 := Int.emod_lt_of_pos _ (by norm_num)
  have l0 : 0 ≤ jsRound r % 16 := Int.emod_nonneg _ (by norm_num)
  have l1 : jsRound r % 16 < 16 := Int.emod_lt_of_pos _ (by norm_num)
  exact jsOr_hi_lo (by omega) (by omega) l0 (by omega) (by omega)

theorem packEvent_inst_brightness_isSome (q r : ℚ) :
    ∃ t, packEvent (ESET_INSTANCE q) [ESET_BRIGHTNESS r] = some t := by
  rw [← Option.isSome_iff_exists]
  apply packEvent_isSome
  · rw [packed_inst_brightness]
    have h0 : 0 ≤ jsRound q % 256 := Int.emod_nonneg _ (by norm_num)
    have l0 : 0 ≤ jsRound r % 256 := Int.emod_nonneg _ (by norm_num)
    omega
  · rw [packed_inst_brightness]
    have h1 : jsRound q % 256 < 256 := Int.emod_lt_of_pos _ (by norm_num)
    have l1 : jsRound r % 256 < 256 := Int.emod_lt_of_pos _ (by norm_num)
    omega

theorem packEvent_inst_level_isSome (q r : ℚ) :
    ∃ t, packEvent (ESET_INSTANCE q) [ESET_LEVEL r] = some t := by
  rw [← Option.isSome_iff_exists]
  apply packEvent_isSome
  · rw [packed_inst_level]
    have h0 : 0 ≤ jsRound q % 256 := Int.emod_nonneg _ (by norm_num)
    have l0 : 0 ≤ jsRound r % 16 := Int.emod_nonneg _ (by norm_num)
    omega
  · rw [packed_inst_level]
    have h1 : jsRound q % 256 < 256 := Int.emod_lt_of_pos _ (by norm_num)
    have l1 : jsRound r % 16 < 16 := Int.emod_lt_of_pos _ (by norm_num)
    omega

theorem setLightBrightness_not_found {lights : List (Int × LightData)} {i : Int}
    (b : ℚ) (h : jmGet lights i = none) :
    setLightBrightness lights i b = ⟨false, lights, none⟩ := by
  rw [setLightBrightness, h]

theorem setLightBrightness_found {lights : List (Int × LightData)} {i : Int}
    (b : ℚ) {light : LightData} (h : jmGet lights i = some light) :
    (setLightBrightness lights i b).ok = true ∧
    (setLightBrightness lights i b).lights =
      jmSet lights i { light with currentBrightness := max 0 (min 100 b) } ∧
    (setLightBrightness lights i b).sent.isSome = true := by
  rw [setLightBrightness, h]
  by_cases hd : light.isDimmer
  · obtain ⟨t, ht⟩ := packEvent_inst_brightness_isSome (i : ℚ)
      ((jsRound (max 0 (min 100 b) / 100 * 200) : Int) : ℚ)
    simp only [hd, if_pos, ht, Option.map_some]
    exact ⟨rfl, rfl, rfl⟩
  · obtain ⟨t, ht⟩ := packEvent_inst_level_isSome (i : ℚ)
      (if max 0 (min 100 b) > 0 then 1 else 0)
    simp only [hd, Bool.false_eq_true, if_false, ht, Option.map_some]
    exact ⟨rfl, rfl, rfl⟩

theorem setLightBrightness_sent_dimmer {lights : List (Int × LightData)} {i : Int}
    (b : ℚ) {light : LightData} (h : jmGet lights i = some light)
    (hd : light.isDimmer = true) :
    (setLightBrightness lights i b).sent =
      (packEvent (ESET_INSTANCE (i : ℚ))
          [ESET_BRIGHTNESS ((jsRound (max 0 (min 100 b) / 100 * 200) : Int) : ℚ)]).map
        (fun p => "HMSEVENT=ENEWMARDIMMERPARSER_SET_BRIGHTNESS_NONSCALED|" ++ p) := by
  rw [setLightBrightness, h]
  obtain ⟨t, ht⟩ := packEvent_inst_brightness_isSome (i : ℚ)
    ((jsRound (max 0 (min 100 b) / 100 * 200) : Int) : ℚ)
  simp only [hd, if_pos, ht, Option.map_some]
  rfl

theorem setLightBrightness_sent_switch {lights : List (Int × LightData)} {i : Int}
    (b : ℚ) {light : LightData} (h : jmGet lights i = some light)
    (hd : light.isDimmer = false) :
    (setLightBrightness lights i b).sent =
      (packEvent (ESET_INSTANCE (i : ℚ))
          [ESET_LEVEL (if max 0 (min 100 b) > 0 then 1 else 0)]).map
        (fun p => "HMSEVENT=ENEWMARDIMMERPARSER_TURN_ON_OFF|" ++ p) := by
  rw [setLightBrightness, h]
  obtain ⟨t, ht⟩ := packEvent_inst_level_isSome (i : ℚ)
    (if max 0 (min 100 b) > 0 then 1 else 0)
  simp only [hd, Bool.false_eq_true, if_false, ht, Option.map_some]
  rfl

/-- The capture loop stores exactly one member per registry light passing
the room filter. -/
theorem saveSceneScan_length (refresh : Int → Option ℚ) (roomFilter : Option Int)
    (lights : List (Int × LightData)) :
    (saveSceneScan refresh roomFilter lights).1.length
      = (lights.filter (fun p => passesRoomFilter roomFilter p.2)).length := by
  induction lights with
  | nil => rfl
  | cons p rest ih =>
    obtain ⟨k, light⟩ := p
    by_cases h : passesRoomFilter roomFilter light = true
    · simp [saveSceneScan, h, List.filter_cons, ih]
    · simp only [saveSceneScan, Bool.not_eq_true] at *
      simp [h, List.filter_cons, ih]

/-- setLightBrightness never adds or removes registry keys. -/
theorem setLightBrightness_keys (lights : List (Int × LightData)) (i : Int)
    (b : ℚ) (j : Int) :
    (jmGet (setLightBrightness lights i b).lights j).isSome
      = (jmGet lights j).isSome := by
  cases h : jmGet lights i with
  | none => rw [setLightBrightness_not_found b h]
  | some light =>
    obtain ⟨-, hl, -⟩ := setLightBrightness_found b h
    rw [hl]
    by_cases hij : j = i
    · subst hij
      rw [jmGet_jmSet_self, h]
      rfl
    · rw [jmGet_jmSet_ne _ _ _ _ (by simpa using (Ne.symm hij))]

/-- The number of successful control calls in a scene load is the number
of members whose device id is still a registry key. -/
theorem loadSceneLoop_count (mems : List SceneMember) :
    ∀ (lights : List (Int × LightData)) (c : Nat),
    (loadSceneLoop mems lights c).1
      = c + mems.countP (fun m => (jmGet lights m.index).isSome) := by
  induction mems with
  | nil => intro lights c; simp [loadSceneLoop]
  | cons m rest ih =>
    intro lights c
    cases h : jmGet lights m.index with
    | none =>
      rw [loadSceneLoop]
      have hr : setLightBrightness lights m.index m.brightness = ⟨false, lights, none⟩ :=
        setLightBrightness_not_found _ h
      rw [hr]
      simp only [Bool.false_eq_true, if_false]
      rw [ih lights c, List.countP_cons]
      simp [h]
    | some light =>
      rw [loadSceneLoop]
      obtain ⟨hok, hl, -⟩ := setLightBrightness_found m.brightness h
      rw [hok]
      simp only [if_pos]
      rw [ih _ (c + 1), List.countP_cons]
      have hrest : rest.countP
            (fun q => (jmGet (setLightBrightness lights m.index m.brightness).lights q.index).isSome)
          = rest.countP (fun q => (jmGet lights q.index).isSome) := by
        apply List.countP_congr
        intro a _
        rw [setLightBrightness_keys]
      rw [hrest]
      simp [h]
      omega

theorem foldl_dispatch_eq (p : SchedEvent → Bool) (l : List SchedEvent) :
    ∀ (init : List SchedDispatch),
    l.foldl (fun acc e => if p e then acc ++ (dispatchOf e).toList else acc) init
      = init ++ (l.filter p).filterMap dispatchOf := by
  induction l with
  | nil => intro init; simp
  | cons e rest ih =>
    intro init
    cases hp : p e with
    | true =>
      simp only [List.foldl_cons, hp, if_pos, List.filter_cons, List.filterMap_cons]
      rw [ih]
      cases hdi : dispatchOf e <;> simp [hdi]
    | false =>
      simp only [List.foldl_cons, hp, Bool.false_eq_true, if_false, List.filter_cons]
      rw [ih]

theorem schedInv_init (schedules : List (String × Schedule)) :
    schedInv (initCtrl schedules) := by
  refine ⟨?_, ?_, ?_, ?_⟩
  · intro n; simp [timersFor, initCtrl]
  · intro id n h; simp [initCtrl] at h
  · intro n id h; simp [initCtrl, jmGet] at h
  · intro id n m h; simp [initCtrl] at h

theorem jmGet_jmErase_self {κ α : Type} [BEq κ] [LawfulBEq κ]
    (m : List (κ × α)) (k : κ) : jmGet (jmErase m k) k = none := by
  induction m with
  | nil => rfl
  | cons p rest ih =>
    rw [jmErase, List.filter_cons]
    cases hp : (p.1 == k) with
    | true =>
      simp only [hp, Bool.not_true, Bool.false_eq_true, if_false]
      rw [jmErase] at ih
      exact ih
    | false =>
      simp only [hp, Bool.not_false, if_pos]
      rw [jmGet_cons, if_neg (by simp [hp])]
      rw [jmErase] at ih
      exact ih

theorem jmGet_jmErase_ne {κ α : Type} [BEq κ] [LawfulBEq κ]
    (m : List (κ × α)) (k k2 : κ) (hne : (k == k2) = false) :
    jmGet (jmErase m k) k2 = jmGet m k2 := by
  induction m with
  | nil => rfl
  | cons p rest ih =>
    rw [jmErase, List.filter_cons]
    cases hp : (p.1 == k) with
    | true =>
      have hpk : p.1 = k := eq_of_beq hp
      have hp2 : (p.1 == k2) = false := by rw [hpk]; exact hne
      simp only [hp, Bool.not_true, Bool.false_eq_true, if_false]
      rw [jmGet_cons, if_neg (by simp [hp2])]
      rw [jmErase] at ih
      exact ih
    | false =>
      simp only [hp, Bool.not_false, if_pos]
      rw [jmGet_cons, jmGet_cons]
      cases hp2 : (p.1 == k2) with
      | true => simp [hp2]
      | false =>
        simp only [hp2, Bool.false_eq_true, if_false]
        rw [jmErase] at ih
        exact ih

theorem schedInv_activate {s : CtrlSched} (n : String) (h : schedInv s) :
    schedInv (activateSchedule s n).2 := by
  obtain ⟨h1, h2, h3, h4⟩ := h
  rw [activateSchedule]
  cases hs : jmGet s.schedules n with
  | none => exact ⟨h1, h2, h3, h4⟩
  | some sch =>
    by_cases hc : s.activeSchedules.contains n = true
    · simp only [hc, if_pos]
      exact ⟨h1, h2, h3, h4⟩
    · simp only [hc, Bool.false_eq_true, if_false]
      have hmem : n ∉ s.activeSchedules := by
        intro hin
        exact hc (by simpa [List.contains] using hin)
      have htn : timersFor s n = 0 := by rw [h1 n, if_neg hmem]
      refine ⟨?_, ?_, ?_, ?_⟩
      · intro m
        by_cases hm : m = n
        · subst hm
          rw [timersFor] at htn ⊢
          simp only [List.countP_append]
          rw [htn]
          simp [timersFor]
        · rw [timersFor]
          simp only [List.countP_append]
          have hlast : List.countP (fun t => t.2 == m) [(s.nextId, n)] = 0 := by
            simp
            intro heq
            exact hm heq.symm
          rw [hlast]
          have : List.countP (fun t => t.2 == m) s.timers = timersFor s m := rfl
          rw [this, h1 m]
          have hmm : (m ∈ s.activeSchedules ++ [n]) ↔ m ∈ s.activeSchedules := by
            simp [hm]
          simp only [hmm]
          omega
      · intro id m hmem2
        simp only [List.mem_append, List.mem_singleton] at hmem2
        cases hmem2 with
        | inl hold =>
          obtain ⟨hmap, hid⟩ := h2 id m hold
          by_cases hmn : m = n
          · subst hmn
            exfalso
            have := List.countP_eq_zero.mp htn _ hold
            simp at this
          · rw [jmGet_jmSet_ne _ _ _ _ (by simp [Ne.symm hmn])]
            refine ⟨hmap, ?_⟩
            show id < s.nextId + 1
            omega
        | inr hnew =>
          have hid : id = s.nextId := congrArg Prod.fst hnew
          have hm : m = n := congrArg Prod.snd hnew
          subst hid; subst hm
          rw [jmGet_jmSet_self]
          refine ⟨rfl, ?_⟩
          show s.nextId < s.nextId + 1
          omega
      · intro m id hget
        by_cases hmn : m = n
        · subst hmn
          rw [jmGet_jmSet_self] at hget
          simp only [Option.some_inj] at hget
          subst hget
          simp
        · rw [jmGet_jmSet_ne _ _ _ _ (by simp [Ne.symm hmn])] at hget
          have := h3 m id hget
          simp [this]
      · intro id a b ha hb
        simp only [List.mem_append, List.mem_singleton] at ha hb
        cases ha with
        | inl ha1 =>
          cases hb with
          | inl hb1 => exact h4 id a b ha1 hb1
          | inr hb2 =>
            exfalso
            have hid : id = s.nextId := congrArg Prod.fst hb2
            obtain ⟨-, hlt⟩ := h2 id a ha1
            omega
        | inr ha2 =>
          cases hb with
          | inl hb1 =>
            exfalso
            have hid : id = s.nextId := congrArg Prod.fst ha2
            obtain ⟨-, hlt⟩ := h2 id b hb1
            omega
          | inr hb2 =>
            have haa : a = n := congrArg Prod.snd ha2
            have hbb : b = n := congrArg Prod.snd hb2
            rw [haa, hbb]

theorem deactivateSchedule_not_active {s : CtrlSched} {n : String}
    (hc : s.activeSchedules.contains n = false) :
    deactivateSchedule s n = (false, s) := by
  rw [deactivateSchedule, hc]
  rfl

theorem deactivateSchedule_active {s : CtrlSched} {n : String} {idd : Nat}
    (hc : s.activeSchedules.contains n = true)
    (hm : jmGet s.scheduleIntervals n = some idd) :
    deactivateSchedule s n =
      (true,
        ⟨s.schedules, s.activeSchedules.filter (fun x => !(x == n)),
          jmErase s.scheduleIntervals n,
          s.timers.filter (fun t => !(t.1 == idd)), s.nextId⟩) := by
  rw [deactivateSchedule, hc, hm]
  rfl

theorem activateSchedule_idem {s : CtrlSched} {n : String}
    (hs : (jmGet s.schedules n).isSome = true)
    (hc : s.activeSchedules.contains n = true) :
    activateSchedule s n = (true, s) := by
  rw [activateSchedule]
  cases hget : jmGet s.schedules n with
  | none => rw [hget] at hs; exact absurd hs (by simp)
  | some sch =>
    rw [hc]
    rfl

theorem schedInv_deactivate {s : CtrlSched} (n : String) (h : schedInv s) :
    schedInv (deactivateSchedule s n).2 := by
  obtain ⟨h1, h2, h3, h4⟩ := h
  cases hc : s.activeSchedules.contains n with
  | false => rw [deactivateSchedule_not_active hc]; exact ⟨h1, h2, h3, h4⟩
  | true =>
    have hmem : n ∈ s.activeSchedules := by
      have := (List.contains_iff_exists_mem_beq).mp hc
      obtain ⟨a, ha, hab⟩ := this
      have : n = a := eq_of_beq hab
      rw [this]
      exact ha
    cases hm : jmGet s.scheduleIntervals n with
    | none =>
      exfalso
      have hex : ∃ t ∈ s.timers, (t.2 == n) = true := by
        by_contra hno
        push_neg at hno
        have hzero : timersFor s n = 0 := by
          rw [timersFor, List.countP_eq_zero]
          intro a ha
          simp only [Bool.not_eq_true]
          exact Bool.not_eq_true _ ▸ (by simpa using hno a ha)
        rw [h1 n, if_pos hmem] at hzero
        omega
      obtain ⟨t, htmem, hts⟩ := hex
      have htn : (t.1, n) ∈ s.timers := by
        have : t = (t.1, t.2) := rfl
        rw [eq_of_beq hts] at this
        rw [← this]
        exact htmem
      have := (h2 t.1 n htn).1
      rw [hm] at this
      exact Option.noConfusion this
    | some idd =>
      have tmem : (idd, n) ∈ s.timers := h3 n idd hm
      have ha : ∀ id, (id, n) ∈ s.timers → id = idd := by
        intro id hid
        have := (h2 id n hid).1
        rw [hm] at this
        exact (Option.some_inj.mp this).symm
      have hb : ∀ id m, (id, m) ∈ s.timers → id = idd → m = n := by
        intro id m hmm heq
        subst heq
        exact h4 id m n hmm tmem
      rw [deactivateSchedule_active hc hm]
      refine ⟨?_, ?_, ?_, ?_⟩
      · intro m
        by_cases hmn : m = n
        · subst hmn
          have hz : timersFor
              (⟨s.schedules, s.activeSchedules.filter (fun x => !(x == m)),
                jmErase s.scheduleIntervals m,
                s.timers.filter (fun t => !(t.1 == idd)), s.nextId⟩ : CtrlSched) m = 0 := by
            rw [timersFor, List.countP_eq_zero]
            intro a haf
            obtain ⟨hat, hai⟩ := List.mem_filter.mp haf
            rw [Bool.not_eq_true'] at hai
            intro hcontra
            have h2m : a.2 = m := eq_of_beq hcontra
            have : (a.1, m) ∈ s.timers := by
              have hpair : a = (a.1, a.2) := rfl
              rw [h2m] at hpair
              rw [← hpair]
              exact hat
            have := ha a.1 this
            rw [this] at hai
            simp at hai
          rw [hz]
          have : m ∉ (s.activeSchedules.filter (fun x => !(x == m))) := by
            intro hin
            obtain ⟨-, hfalse⟩ := List.mem_filter.mp hin
            simp at hfalse
          simp [this]
        · have hcount : List.countP (fun t => t.2 == m)
              (s.timers.filter (fun t => !(t.1 == idd)))
              = List.countP (fun t => t.2 == m) s.timers := by
            rw [List.countP_filter]
            apply List.countP_congr
            intro a hat
            cases h2m : (a.2 == m) with
            | false => simp [h2m]
            | true =>
              have hane : ¬ (a.1 = idd) := by
                intro hcontra
                have : (a.1, a.2) ∈ s.timers := by
                  exact hat
                have := hb a.1 a.2 this hcontra
                rw [eq_of_beq h2m] at this
                exact hmn this
              simp [h2m, hane]
          rw [timersFor]
          show List.countP (fun t => t.2 == m)
              (s.timers.filter (fun t => !(t.1 == idd))) = _
          rw [hcount]
          have hmem2 : (m ∈ s.activeSchedules.filter (fun x => !(x == n)))
              ↔ m ∈ s.activeSchedules := by
            constructor
            · intro hin; exact (List.mem_filter.mp hin).1
            · intro hin
              exact List.mem_filter.mpr ⟨hin, by simp [hmn]⟩
          have hbase := h1 m
          rw [timersFor] at hbase
          rw [hbase]
          simp only [hmem2]
      · intro id m hmm
        obtain ⟨hat, hai⟩ := List.mem_filter.mp hmm
        obtain ⟨hmap, hid⟩ := h2 id m hat
        have hmn : m ≠ n := by
          intro hcontra
          subst hcontra
          have := ha id hat
          rw [this] at hai
          simp at hai
        refine ⟨?_, hid⟩
        show jmGet (jmErase s.scheduleIntervals n) m = some id
        rw [jmGet_jmErase_ne _ _ _ (beq_eq_false_iff_ne.mpr (fun hh => hmn hh.symm))]
        exact hmap
      · intro m id hget
        by_cases hmn : m = n
        · subst hmn
          rw [show jmGet (jmErase s.scheduleIntervals m) m = none from
            jmGet_jmErase_self _ _] at hget
          exact Option.noConfusion hget
        · rw [show jmGet (jmErase s.scheduleIntervals n) m
              = jmGet s.scheduleIntervals m from
            jmGet_jmErase_ne _ _ _ (beq_eq_false_iff_ne.mpr (fun hh => hmn hh.symm))] at hget
          have hat := h3 m id hget
          apply List.mem_filter.mpr
          refine ⟨hat, ?_⟩
          simp only [Bool.not_eq_eq_eq_not, Bool.not_true]
          exact beq_eq_false_iff_ne.mpr (fun hideq => hmn (hb id m hat hideq))
      · intro id a b haf hbf
        exact h4 id a b (List.mem_filter.mp haf).1 (List.mem_filter.mp hbf).1

theorem schedInv_run (ops : List SchedOp) :
    ∀ s : CtrlSched, schedInv s → schedInv (runSchedOps s ops) := by
  induction ops with
  | nil => intro s h; exact h
  | cons op rest ih =>
    intro s h
    cases op with
    | act n => exact ih _ (schedInv_activate n h)
    | deact n => exact ih _ (schedInv_deactivate n h)

theorem contains_iff_mem_str (l : List String) (n : String) :
    l.contains n = true ↔ n ∈ l := by
  rw [List.contains, List.elem_eq_mem, decide_eq_true_iff]

theorem toUint32_ofUint32 {u : Nat} (h : u < 4294967296) :
    toUint32 (ofUint32 u) = u := by
  rw [ofUint32, toUint32]
  split <;> omega

theorem or_lt_32 {x y : Nat} (hx : x < 4294967296) (hy : y < 4294967296) :
    x ||| y < 4294967296 := by
  have h32 : (4294967296:Nat) = 2^32 := by norm_num
  rw [h32] at hx hy ⊢
  exact Nat.or_lt_two_pow hx hy

theorem toUint32_jsOr (x y : Int) :
    toUint32 (jsOr x y) = toUint32 x ||| toUint32 y := by
  rw [jsOr, toUint32_ofUint32 (or_lt_32 (toUint32_lt x) (toUint32_lt y))]

theorem jsOr_comm (a b : Int) : jsOr a b = jsOr b a := by
  rw [jsOr, jsOr, Nat.or_comm]

theorem lor_absorb (u v : Nat) : ((u ||| v) ||| u) ||| v = u ||| v := by
  rw [Nat.or_assoc (u ||| v) u v, Nat.or_self]

theorem jsOr_idem_chain (a b : Int) : jsOr (jsOr (jsOr a b) a) b = jsOr a b := by
  have h1 : jsOr (jsOr (jsOr a b) a) b
      = ofUint32 (((toUint32 a ||| toUint32 b) ||| toUint32 a) ||| toUint32 b) := by
    rw [jsOr, toUint32_jsOr, toUint32_jsOr]
  rw [h1, lor_absorb, jsOr]

theorem jsRound_zero : jsRound 0 = 0 := by
  rw [show (0:ℚ) = ((0:ℤ):ℚ) by norm_num, jsRound_intCast]

theorem jsRound_one : jsRound 1 = 1 := by
  rw [show (1:ℚ) = ((1:ℤ):ℚ) by norm_num, jsRound_intCast]

/-- The clamped brightness lies in 0..100. -/
theorem clamp_bounds (b : ℚ) : 0 ≤ max 0 (min 100 b) ∧ max 0 (min 100 b) ≤ 100 :=
  ⟨le_max_left 0 _, max_le (by norm_num) (min_le_left 100 b)⟩

/-- Clamping is idempotent. -/
theorem clamp_idem (b : ℚ) :
    max 0 (min 100 (max 0 (min 100 b))) = max 0 (min 100 b) := by
  obtain ⟨h0, h1⟩ := clamp_bounds b
  rw [min_eq_right h1, max_eq_right h0]

/-- The dimmer scale value is an integer from 0 to 200. -/
theorem scaled_bounds (b : ℚ) :
    0 ≤ jsRound (max 0 (min 100 b) / 100 * 200) ∧
    jsRound (max 0 (min 100 b) / 100 * 200) ≤ 200 := by
  obtain ⟨h0, h1⟩ := clamp_bounds b
  have ht : max 0 (min 100 b) / 100 * 200 = 2 * max 0 (min 100 b) := by ring
  rw [jsRound_eq_floor, ht]
  constructor
  · rw [Int.le_floor]
    push_cast
    linarith
  · have : (2 * max 0 (min 100 b) + 1/2 : ℚ) < 201 := by linarith
    have hlt := Int.floor_lt.mpr (by push_cast; linarith :
      (2 * max 0 (min 100 b) + 1/2 : ℚ) < ((201:ℤ) : ℚ))
    omega

/-- The number of object responses that parse successfully is the number
of insertions counted by the discovery handlers. -/
theorem runLightHandlers_count (resps : List (Option RawLight)) :
    ∀ (lights : List (Int × LightData)) (c : Nat),
    (runLightHandlers resps lights c).2 = c + resps.countP Option.isSome := by
  induction resps with
  | nil => intro lights c; simp [runLightHandlers]
  | cons r rest ih =>
    intro lights c
    cases r with
    | none =>
      rw [runLightHandlers, ih, List.countP_cons]
      simp
    | some o =>
      rw [runLightHandlers, ih, List.countP_cons]
      simp
      omega

/-- Every successfully parsed object response ends up inserted in the
registry built by the discovery handlers. -/
theorem runLightHandlers_mem (resps : List (Option RawLight)) :
    ∀ (lights : List (Int × LightData)) (c : Nat) (o : RawLight),
    (some o ∈ resps ∨ (jmGet lights o.index).isSome = true) →
    (jmGet (runLightHandlers resps lights c).1 o.index).isSome = true := by
  induction resps with
  | nil =>
    intro lights c o h
    cases h with
    | inl h => simp at h
    | inr h => exact h
  | cons r rest ih =>
    intro lights c o h
    cases r with
    | none =>
      rw [runLightHandlers]
      apply ih
      cases h with
      | inl hmem =>
        simp only [List.mem_cons] at hmem
        cases hmem with
        | inl heq => exact absurd heq (by simp)
        | inr hrest => exact Or.inl hrest
      | inr hreg => exact Or.inr hreg
    | some o2 =>
      rw [runLightHandlers]
      apply ih
      by_cases hidx : o.index = o2.index
      · refine Or.inr ?_
        rw [hidx, jmGet_jmSet_self]
        rfl
      · cases h with
        | inl hmem =>
          simp only [List.mem_cons] at hmem
          cases hmem with
          | inl heq =>
            have : o = o2 := by injection heq
            exact absurd (congrArg RawLight.index this) hidx
          | inr hrest => exact Or.inl hrest
        | inr hreg =>
          refine Or.inr ?_
          rw [jmGet_jmSet_ne _ _ _ _ (beq_eq_false_iff_ne.mpr (fun hh => hidx hh.symm))]
          exact hreg

theorem loadScene_found {scenes : List (String × Scene)}
    {lights : List (Int × LightData)} {sceneName : String} {scene : Scene}
    (h : jmGet scenes sceneName = some scene) :
    loadScene scenes lights sceneName
      = (decide ((loadSceneLoop scene.lights lights 0).1 > 0),
         (loadSceneLoop scene.lights lights 0).2) := by
  rw [loadScene, h]

/-- C1 counterexample: with an advertised count of 2, one good response
and one malformed response, the discovery promise does not resolve Ready;
it is rejected by the 10 second timeout, with the parsed device left in
the registry. -/
theorem discovery_parse_failure_not_resolved_cex :
    runDiscovery 2 [some rawLightA, none]
      = InitOutcome.rejectedTimeout [(0, mkLightData rawLightA)] ∧
    (runDiscovery 2 [some rawLightA, none]).isResolved = false := ⟨rfl, rfl⟩

/-- C1 (amended): a JSON parse failure during discovery is logged and the
device skipped without being inserted, but the workflow does not resolve
Ready with the remaining devices: whenever fewer responses parse than the
advertised count, initialize rejects with INIT_TIMEOUT after the 10
second budget, while every successfully parsed device remains inserted in
the registry. -/
theorem discovery_parse_failure_rejects :
    ∀ (totalLights : Int) (resps : List (Option RawLight)),
    0 < totalLights →
    ((resps.countP Option.isSome : Int) < totalLights) →
    (runDiscovery totalLights resps).isResolved = false ∧
    (∀ o : RawLight, some o ∈ resps →
      (jmGet (runDiscovery totalLights resps).registry o.index).isSome = true) := by
  intro total resps hpos hlt
  have hne : ¬ total = 0 := by omega
  have hcount : ((runLightHandlers resps [] 0).2 : Int) = (resps.countP Option.isSome : Int) := by
    rw [runLightHandlers_count]
    norm_num
  have hneq : ¬ ((runLightHandlers resps [] 0).2 : Int) = total := by
    rw [hcount]; omega
  constructor
  · rw [runDiscovery, if_neg hne]
    simp only [hneq, if_false]
    rfl
  · intro o hmem
    have hreg : (runDiscovery total resps).registry = (runLightHandlers resps [] 0).1 := by
      rw [runDiscovery, if_neg hne]
      simp only [hneq, if_false]
      rfl
    rw [hreg]
    exact runLightHandlers_mem resps [] 0 o (Or.inl hmem)

/-- C1 witness: the amended theorem applied at the concrete
counterexample input. -/
theorem discovery_parse_failure_rejects_witness :
    (0:Int) < 2 ∧
    (([some rawLightA, none].countP Option.isSome : Int) < 2) ∧
    (runDiscovery 2 [some rawLightA, none]).isResolved = false :=
  ⟨by decide, by decide,
    (discovery_parse_failure_rejects 2 [some rawLightA, none] (by decide) (by decide)).1⟩

/-- C3: a discovery count response of 0 resolves Ready immediately with
an empty registry, whatever object responses later arrive; it never
rejects with the timeout. -/
theorem discovery_count_zero_resolves_ready :
    ∀ resps : List (Option RawLight),
    runDiscovery 0 resps = InitOutcome.resolved [] ∧
    (runDiscovery 0 resps).isResolved = true :=
  fun _ => ⟨rfl, rfl⟩

/-- C2 counterexample: loadScene returns a boolean, not an applied count.
Loading the scene with one missing member applies 1 of 2 members yet
returns true, the same value as loading the fully applicable scene, so
the return value does not expose partial application and is not a count
strictly below the member total. -/
theorem loadScene_boolean_not_count_cex :
    (loadScene sceneStore registryTwo "part").1 = true ∧
    (loadSceneLoop scenePart.lights registryTwo 0).1 = 1 ∧
    scenePart.lights.length = 2 ∧
    (loadScene sceneStore registryTwo "full").1 = true ∧
    (loadSceneLoop sceneFull.lights registryTwo 0).1 = 2 := by
  have hpart : jmGet sceneStore "part" = some scenePart := rfl
  have hfull : jmGet sceneStore "full" = some sceneFull := rfl
  have hcp : (loadSceneLoop scenePart.lights registryTwo 0).1 = 1 := by
    rw [loadSceneLoop_count]
    decide
  have hcf : (loadSceneLoop sceneFull.lights registryTwo 0).1 = 2 := by
    rw [loadSceneLoop_count]
    decide
  refine ⟨?_, hcp, by decide, ?_, hcf⟩
  · rw [loadScene_found hpart]
    rw [show (loadSceneLoop scenePart.lights registryTwo 0).1 = 1 from hcp]
    decide
  · rw [loadScene_found hfull]
    rw [show (loadSceneLoop sceneFull.lights registryTwo 0).1 = 2 from hcf]
    decide

/-- C2 (amended): for every stored scene, members whose device id is no
longer in the registry are skipped without an exception and excluded from
the success count; the count of applied members equals the number of
members whose id is a registry key, and it is strictly below the member
total when some member references a missing id. The value loadScene
returns, however, is only the boolean successCount greater than zero, not
the count itself. -/
theorem loadScene_skips_missing_members :
    ∀ (scenes : List (String × Scene)) (lights : List (Int × LightData))
      (sceneName : String) (scene : Scene),
    jmGet scenes sceneName = some scene →
    (loadSceneLoop scene.lights lights 0).1
        = scene.lights.countP (fun m => (jmGet lights m.index).isSome) ∧
    (loadScene scenes lights sceneName).1
        = decide ((loadSceneLoop scene.lights lights 0).1 > 0) ∧
    (∀ m ∈ scene.lights, jmGet lights m.index = none →
      (loadSceneLoop scene.lights lights 0).1 < scene.lights.length) := by
  intro scenes lights sceneName scene h
  have hcount := loadSceneLoop_count scene.lights lights 0
  refine ⟨by rw [hcount]; norm_num, by rw [loadScene_found h], ?_⟩
  intro m hm hmiss
  rw [hcount]
  have hle : scene.lights.countP (fun q => (jmGet lights q.index).isSome)
      ≤ scene.lights.length := List.countP_le_length _
  have hne : ¬ (scene.lights.countP (fun q => (jmGet lights q.index).isSome)
      = scene.lights.length) := by
    rw [List.countP_eq_length]
    intro hall
    have := hall m hm
    rw [hmiss] at this
    simp at this
  omega

/-- C2 witness: the amended theorem applied at the concrete partially
applicable scene. -/
theorem loadScene_skips_missing_members_witness :
    jmGet sceneStore "part" = some scenePart ∧
    ((loadSceneLoop scenePart.lights registryTwo 0).1
        = scenePart.lights.countP (fun m => (jmGet registryTwo m.index).isSome) ∧
      (loadScene sceneStore registryTwo "part").1
        = decide ((loadSceneLoop scenePart.lights registryTwo 0).1 > 0) ∧
      (∀ m ∈ scenePart.lights, jmGet registryTwo m.index = none →
        (loadSceneLoop scenePart.lights registryTwo 0).1 < scenePart.lights.length)) :=
  ⟨rfl, loadScene_skips_missing_members sceneStore registryTwo "part" scenePart rfl⟩

/-- C4 counterexample: the codec encoder does not clamp. At brightness
200 it outputs 200, whereas round(clamp(200,0,100)) AND 0xFF is 100. -/
theorem encodeBrightness_unclamped_cex :
    ESET_BRIGHTNESS 200 = 200 ∧
    jsAnd (jsRound (max 0 (min 100 (200:ℚ)))) 255 = 100 ∧
    ¬ ((200:Int) = 100) := by
  have h200 : jsRound (200:ℚ) = 200 := by
    rw [show (200:ℚ) = ((200:ℤ):ℚ) by norm_num, jsRound_intCast]
  have hclamp : max 0 (min 100 (200:ℚ)) = 100 := by
    rw [min_eq_left (by norm_num : (100:ℚ) ≤ 200),
      max_eq_right (by norm_num : (0:ℚ) ≤ 100)]
  have h100 : jsRound (100:ℚ) = 100 := by
    rw [show (100:ℚ) = ((100:ℤ):ℚ) by norm_num, jsRound_intCast]
  refine ⟨?_, ?_, by decide⟩
  · rw [ESET_BRIGHTNESS, h200]
    decide
  · rw [hclamp, h100]
    decide

/-- C4 (amended): for every brightness input b the encoder output is
round(b) AND 0xFF, that is round(b) modulo 256 with no clamping of its
own; the encoding is defined (a bitmasked byte) for every input,
including inputs outside 0..100. -/
theorem encodeBrightness_bitmask_no_clamp :
    ∀ b : ℚ, ESET_BRIGHTNESS b = jsRound b % 256 ∧
    0 ≤ ESET_BRIGHTNESS b ∧ ESET_BRIGHTNESS b < 256 :=
  fun b => ⟨ESET_BRIGHTNESS_eq b, ESET_BRIGHTNESS_nonneg b, ESET_BRIGHTNESS_lt b⟩

/-- C5 counterexample: saving a scene with a room filter matching no
device succeeds and stores a scene whose member list is empty, so a
scene member list can be empty once saved. -/
theorem saveScene_zero_members_cex :
    (saveScene true [(1, lightSwitch1)] refreshNone "t0" "night" (some 2) []).isSome
      = true ∧
    ((saveScene true [(1, lightSwitch1)] refreshNone "t0" "night" (some 2) []).map
        (fun r => r.1.lights.length)) = some 0 := by
  refine ⟨rfl, rfl⟩

/-- C5 (amended): a successful saveScene stores exactly one member per
registry device passing the room filter; when the filter matches no
device the stored scene has zero members, so the spec invariant that a
saved scene is never empty does not hold. -/
theorem saveScene_member_count :
    ∀ (lights : List (Int × LightData)) (refresh : Int → Option ℚ)
      (nowIso sceneName : String) (roomFilter : Option Int)
      (scenes : List (String × Scene)),
    sceneName.isEmpty = false →
    (saveScene true lights refresh nowIso sceneName roomFilter scenes).map
        (fun r => r.1.lights.length)
      = some ((lights.filter (fun p => passesRoomFilter roomFilter p.2)).length) := by
  intro lights refresh nowIso sceneName roomFilter scenes hname
  rw [saveScene]
  simp only [Bool.not_true, Bool.false_eq_true, if_false, hname]
  show some ((saveSceneScan refresh roomFilter lights).1.length) = _
  rw [saveSceneScan_length]

/-- C5 witness: the amended theorem applied at a registry whose only
light is filtered out. -/
theorem saveScene_member_count_witness :
    ("night".isEmpty = false) ∧
    (saveScene true [(1, lightSwitch1)] refreshNone "t0" "night" (some 2) []).map
        (fun r => r.1.lights.length)
      = some (([(1, lightSwitch1)].filter
          (fun p => passesRoomFilter (some 2) p.2)).length) :=
  ⟨by decide,
    saveScene_member_count [(1, lightSwitch1)] refreshNone "t0" "night" (some 2) []
      (by decide)⟩

/-- C6: for every registry light and every numeric brightness argument,
setLightBrightness behaves exactly as on the clamped value (the clamp to
0..100 happens before the wire command is built and sent), and the cached
currentBrightness stored afterwards is the clamped value, always within
0..100. -/
theorem setLightBrightness_clamps :
    ∀ (lights : List (Int × LightData)) (i : Int) (b : ℚ) (light : LightData),
    jmGet lights i = some light →
    setLightBrightness lights i b
        = setLightBrightness lights i (max 0 (min 100 b)) ∧
    jmGet (setLightBrightness lights i b).lights i
        = some { light with currentBrightness := max 0 (min 100 b) } ∧
    0 ≤ max 0 (min 100 b) ∧ max 0 (min 100 b) ≤ 100 := by
  intro lights i b light h
  refine ⟨?_, ?_, (clamp_bounds b).1, (clamp_bounds b).2⟩
  · rw [setLightBrightness, setLightBrightness, h, clamp_idem b]
  · obtain ⟨-, hl, -⟩ := setLightBrightness_found b h
    rw [hl, jmGet_jmSet_self]

/-- C6 witness: the theorem applied at a concrete switch light with the
out-of-range brightness 150. -/
theorem setLightBrightness_clamps_witness :
    jmGet [(1, lightSwitch1)] 1 = some lightSwitch1 ∧
    (setLightBrightness [(1, lightSwitch1)] 1 150
        = setLightBrightness [(1, lightSwitch1)] 1 (max 0 (min 100 150)) ∧
      jmGet (setLightBrightness [(1, lightSwitch1)] 1 150).lights 1
        = some { lightSwitch1 with currentBrightness := max 0 (min 100 150) } ∧
      0 ≤ max 0 (min 100 (150:ℚ)) ∧ max 0 (min 100 (150:ℚ)) ≤ 100) :=
  ⟨rfl, setLightBrightness_clamps [(1, lightSwitch1)] 1 150 lightSwitch1 rfl⟩

/-- C7: on an evaluator tick the dispatched actions are exactly those of
the events whose time string equals the current HH:MM and whose days list
contains the current weekday tag, taken in event-list order; a disabled
schedule dispatches nothing on a tick. -/
theorem checkScheduleEvents_dispatch_iff :
    ∀ (schedules : List (String × Schedule)) (scheduleName : String)
      (hours minutes weekday : Nat) (schedule : Schedule),
    jmGet schedules scheduleName = some schedule →
    checkScheduleEvents schedules scheduleName hours minutes weekday
      = (if schedule.enabled then
          (schedule.events.filter (fun e =>
            e.time == currentTimeString hours minutes
              && e.days.contains (currentDayString weekday))).filterMap dispatchOf
        else []) := by
  intro schedules scheduleName hours minutes weekday schedule hget
  rw [checkScheduleEvents, hget]
  cases he : schedule.enabled with
  | false => simp [he]
  | true =>
    simp only [he, Bool.not_true, Bool.false_eq_true, if_false, if_true]
    rw [foldl_dispatch_eq]
    simp

/-- C7 witness: the theorem applied at a one-event schedule fixture;
the Monday 07:00 tick dispatches the all-off action once, the 07:01 tick
and the Tuesday tick dispatch nothing. -/
theorem checkScheduleEvents_dispatch_iff_witness :
    jmGet schedStore "morning" = some schedMorning ∧
    checkScheduleEvents schedStore "morning" 7 0 1 = [SchedDispatch.lightsOffAct] ∧
    checkScheduleEvents schedStore "morning" 7 1 1 = [] ∧
    checkScheduleEvents schedStore "morning" 7 0 2 = [] := by
  refine ⟨rfl, ?_, ?_, ?_⟩
  · rw [checkScheduleEvents_dispatch_iff schedStore "morning" 7 0 1 schedMorning rfl]
    decide
  · rw [checkScheduleEvents_dispatch_iff schedStore "morning" 7 1 1 schedMorning rfl]
    decide
  · rw [checkScheduleEvents_dispatch_iff schedStore "morning" 7 0 2 schedMorning rfl]
    decide

/-- C8: packEvent is commutative in its field arguments and idempotent
under repeated OR of the same fields, and packing instance 3 with
brightness 200 renders exactly the token 0x03C8 (instance in the high
byte, brightness in the low byte, four upper-case zero-padded hex
digits behind the 0x marker). -/
theorem packEvent_comm_idem_token :
    (∀ a b : Int, packEvent a [b] = packEvent b [a]) ∧
    (∀ a b : Int, packEvent a [b, a, b] = packEvent a [b]) ∧
    packEvent (ESET_INSTANCE 3) [ESET_BRIGHTNESS 200] = some "0x03C8" := by
  refine ⟨?_, ?_, ?_⟩
  · intro a b
    rw [packEvent, packEvent,
      show packEventVal a [b] = jsOr a b from rfl,
      show packEventVal b [a] = jsOr b a from rfl, jsOr_comm]
  · intro a b
    rw [packEvent, packEvent,
      show packEventVal a [b, a, b] = jsOr (jsOr (jsOr a b) a) b from rfl,
      show packEventVal a [b] = jsOr a b from rfl, jsOr_idem_chain]
  · have h3 : jsRound (3:ℚ) = 3 := by
      rw [show (3:ℚ) = ((3:ℤ):ℚ) by norm_num, jsRound_intCast]
    have h200 : jsRound (200:ℚ) = 200 := by
      rw [show (200:ℚ) = ((200:ℤ):ℚ) by norm_num, jsRound_intCast]
    rw [ESET_INSTANCE, ESET_BRIGHTNESS, h3, h200]
    decide

/-- C9: activating an already-active schedule of an existing name is a
no-op returning true (no second evaluator is created), and in every state
reachable by any sequence of activate and deactivate calls from a fresh
controller, a name is in the active set exactly when one live evaluator
timer is registered for it. -/
theorem schedule_one_evaluator_per_active :
    (∀ (s : CtrlSched) (scheduleName : String),
      (jmGet s.schedules scheduleName).isSome = true →
      s.activeSchedules.contains scheduleName = true →
      activateSchedule s scheduleName = (true, s)) ∧
    (∀ (schedules : List (String × Schedule)) (ops : List SchedOp) (n : String),
      (runSchedOps (initCtrl schedules) ops).activeSchedules.contains n = true
        ↔ timersFor (runSchedOps (initCtrl schedules) ops) n = 1) := by
  refine ⟨fun s scheduleName hs hc => activateSchedule_idem hs hc, ?_⟩
  intro schedules ops n
  obtain ⟨h1, -, -, -⟩ := schedInv_run ops (initCtrl schedules) (schedInv_init schedules)
  rw [contains_iff_mem_str]
  constructor
  · intro hmem
    rw [h1 n, if_pos hmem]
  · intro hcount
    by_contra hmem
    rw [h1 n, if_neg hmem] at hcount
    omega

/-- C9 witness: the theorem applied at the state reached by one
activation of the schedule fixture. -/
theorem schedule_one_evaluator_per_active_witness :
    (jmGet (runSchedOps (initCtrl schedStore) [SchedOp.act "morning"]).schedules
        "morning").isSome = true ∧
    (runSchedOps (initCtrl schedStore) [SchedOp.act "morning"]).activeSchedules.contains
        "morning" = true ∧
    activateSchedule (runSchedOps (initCtrl schedStore) [SchedOp.act "morning"]) "morning"
      = (true, runSchedOps (initCtrl schedStore) [SchedOp.act "morning"]) ∧
    ((runSchedOps (initCtrl schedStore) [SchedOp.act "morning"]).activeSchedules.contains
        "morning" = true
      ↔ timersFor (runSchedOps (initCtrl schedStore) [SchedOp.act "morning"]) "morning" = 1) :=
  ⟨by decide, by decide,
    schedule_one_evaluator_per_active.1 _ _ (by decide) (by decide),
    schedule_one_evaluator_per_active.2 schedStore [SchedOp.act "morning"] "morning"⟩

/-- C10: for a dimmer light, setLightBrightness sends the
SET_BRIGHTNESS_NONSCALED command and the packed value's low byte is
round(clamp(b,0,100)/100*200), the 0..200 wire scale; for a switch light
it sends the TURN_ON_OFF command and the packed value's level nibble is 1
exactly when the clamped brightness is positive, 0 otherwise. -/
theorem setLightBrightness_wire_encoding :
    ∀ (lights : List (Int × LightData)) (i : Int) (b : ℚ) (light : LightData),
    jmGet lights i = some light →
    (light.isDimmer = true →
      (setLightBrightness lights i b).sent =
        (packEvent (ESET_INSTANCE (i : ℚ))
            [ESET_BRIGHTNESS ((jsRound (max 0 (min 100 b) / 100 * 200) : Int) : ℚ)]).map
          (fun p => "HMSEVENT=ENEWMARDIMMERPARSER_SET_BRIGHTNESS_NONSCALED|" ++ p) ∧
      packEventVal (ESET_INSTANCE (i : ℚ))
          [ESET_BRIGHTNESS ((jsRound (max 0 (min 100 b) / 100 * 200) : Int) : ℚ)] % 256
        = jsRound (max 0 (min 100 b) / 100 * 200)) ∧
    (light.isDimmer = false →
      (setLightBrightness lights i b).sent =
        (packEvent (ESET_INSTANCE (i : ℚ))
            [ESET_LEVEL (if max 0 (min 100 b) > 0 then 1 else 0)]).map
          (fun p => "HMSEVENT=ENEWMARDIMMERPARSER_TURN_ON_OFF|" ++ p) ∧
      packEventVal (ESET_INSTANCE (i : ℚ))
          [ESET_LEVEL (if max 0 (min 100 b) > 0 then 1 else 0)] % 16
        = (if max 0 (min 100 b) > 0 then 1 else 0)) := by
  intro lights i b light h
  constructor
  · intro hd
    refine ⟨setLightBrightness_sent_dimmer b h hd, ?_⟩
    rw [packed_inst_brightness,
      jsRound_intCast (jsRound (max 0 (min 100 b) / 100 * 200))]
    obtain ⟨hs0, hs1⟩ := scaled_bounds b
    omega
  · intro hd
    refine ⟨setLightBrightness_sent_switch b h hd, ?_⟩
    rw [packed_inst_level]
    have h0 : 0 ≤ jsRound (i:ℚ) % 256 := Int.emod_nonneg _ (by norm_num)
    have h1 : jsRound (i:ℚ) % 256 < 256 := Int.emod_lt_of_pos _ (by norm_num)
    by_cases hb : max 0 (min 100 b) > 0
    · rw [if_pos hb, if_pos hb, jsRound_one]
      omega
    · rw [if_neg hb, if_neg hb, jsRound_zero]
      omega

/-- C10 witness: the theorem applied at the concrete dimmer fixture with
brightness 75 and at the concrete switch fixture with brightness 75. -/
theorem setLightBrightness_wire_encoding_witness :
    jmGet [(5, lightDimmer5)] 5 = some lightDimmer5 ∧
    lightDimmer5.isDimmer = true ∧
    ((setLightBrightness [(5, lightDimmer5)] 5 75).sent =
        (packEvent (ESET_INSTANCE ((5:Int) : ℚ))
            [ESET_BRIGHTNESS ((jsRound (max 0 (min 100 (75:ℚ)) / 100 * 200) : Int) : ℚ)]).map
          (fun p => "HMSEVENT=ENEWMARDIMMERPARSER_SET_BRIGHTNESS_NONSCALED|" ++ p) ∧
      packEventVal (ESET_INSTANCE ((5:Int) : ℚ))
          [ESET_BRIGHTNESS ((jsRound (max 0 (min 100 (75:ℚ)) / 100 * 200) : Int) : ℚ)] % 256
        = jsRound (max 0 (min 100 (75:ℚ)) / 100 * 200)) ∧
    jmGet registryTwo 1 = some lightSwitch1 ∧
    lightSwitch1.isDimmer = false ∧
    ((setLightBrightness registryTwo 1 75).sent =
        (packEvent (ESET_INSTANCE ((1:Int) : ℚ))
            [ESET_LEVEL (if max 0 (min 100 (75:ℚ)) > 0 then 1 else 0)]).map
          (fun p => "HMSEVENT=ENEWMARDIMMERPARSER_TURN_ON_OFF|" ++ p) ∧
      packEventVal (ESET_INSTANCE ((1:Int) : ℚ))
          [ESET_LEVEL (if max 0 (min 100 (75:ℚ)) > 0 then 1 else 0)] % 16
        = (if max 0 (min 100 (75:ℚ)) > 0 then 1 else 0)) :=
  ⟨rfl, rfl,
    (setLightBrightness_wire_encoding [(5, lightDimmer5)] 5 75 lightDimmer5 rfl).1 rfl,
    rfl, rfl,
    (setLightBrightness_wire_encoding registryTwo 1 75 lightSwitch1 rfl).2 rfl⟩
